import Mathlib

/-!
Shallow embedding of the `drops` relay server (src/handler.go, package `drops`,
together with the `Server` type of the same package).

Modelling conventions:
* Go maps become association lists with unique keys maintained by `setA`
  (Go map assignment replaces the value of an existing key); `lookupA` and
  `eraseA` mirror map read and `delete`.
* A `net.Conn` is identified by a `ConnId` (a `Nat`); bytes written to a
  connection are collected as `(ConnId, String)` pairs in the order the Go
  code issues the writes.  The mutable `clientConn.name` field is threaded
  explicitly through every handler.
* `time.Now()` is modelled by the `now : Nat` counter of the server state;
  `handleMetric` is the only reader of the clock and it advances the counter
  after stamping the new point (a monotone clock refinement).
* `float64` metric values are kept as their source tokens: the server never
  computes with a metric value, it only checks that `strconv.ParseFloat`
  accepts the token and later echoes it.  `parseFloatOk` models the
  success/failure of `strconv.ParseFloat` on the decimal grammar
  (sign, digits, optional fraction, optional exponent, Inf/Infinity/NaN,
  case-insensitive); the `%f` re-rendering of the value in `METRICS` output
  is not modelled (the stored token is echoed), as no claim depends on it.
* `errors.Errorf` messages are reproduced as strings; `%v` of an argument
  slice is rendered as the bracketed space-joined list, as `fmt` does.
-/

namespace Drops

abbrev ConnId := Nat

/-- One `(timestamp, value)` sample, Go struct `metric`. -/
structure Metric where
  ts : Nat
  value : String
deriving Repr, DecidableEq

/-- Go struct `run`: the requester connection and the target station's name,
saved when a RUN is routed so the completion can be routed back. -/
structure Run where
  client : ConnId
  name : String
deriving Repr, DecidableEq

/-- Go struct `Station` (locks elided; `c` is the owning connection). -/
structure Station where
  metrics : List (String × List Metric)
  c : ConnId
  tipe : String
  runs : List (String × Run)
deriving Repr, DecidableEq

/-- Go struct `Server`: the station registry plus configuration, with the
clock counter standing in for `time.Now()`. -/
structure ServerState where
  stations : List (String × Station)
  maxMetricPoints : Nat
  now : Nat
deriving Repr, DecidableEq

/-- Association-list lookup, modelling a Go map read. -/
def lookupA {κ α : Type} [DecidableEq κ] : List (κ × α) → κ → Option α
  | [], _ => none
  | (k', v) :: rest, k => if k' = k then some v else lookupA rest k

/-- Association-list update-or-append, modelling Go map assignment. -/
def setA {κ α : Type} [DecidableEq κ] : List (κ × α) → κ → α → List (κ × α)
  | [], k, v => [(k, v)]
  | (k', v') :: rest, k, v =>
      if k' = k then (k, v) :: rest else (k', v') :: setA rest k v

/-- Association-list removal, modelling Go `delete`.  (On the unique-key
lists a Go map denotes, removing every occurrence and removing the first
occurrence agree.) -/
def eraseA {κ α : Type} [DecidableEq κ] : List (κ × α) → κ → List (κ × α)
  | [], _ => []
  | (k', v') :: rest, k =>
      if k' = k then eraseA rest k else (k', v') :: eraseA rest k

instance {ε α : Type} [DecidableEq ε] [DecidableEq α] :
    DecidableEq (Except ε α) := fun a b =>
  match a, b with
  | .error x, .error y =>
    if h : x = y then .isTrue (by rw [h])
    else .isFalse (by intro hc; cases hc; exact h rfl)
  | .error _, .ok _ => .isFalse (by intro hc; cases hc)
  | .ok _, .error _ => .isFalse (by intro hc; cases hc)
  | .ok x, .ok y =>
    if h : x = y then .isTrue (by rw [h])
    else .isFalse (by intro hc; cases hc; exact h rfl)

/-- Space-join of tokens, used to render `%v` of an argument slice. -/
def joinSp : List String → String
  | [] => ""
  | [x] => x
  | x :: rest => x ++ " " ++ joinSp rest

/-- The `errors.Errorf("bad arg count: %v", args)` message. -/
def argCountMsg (args : List String) : String :=
  "bad arg count: [" ++ joinSp args ++ "]"

/-- Nonempty all-digit check. -/
def allDigits (cs : List Char) : Bool :=
  !cs.isEmpty && cs.all Char.isDigit

/-- Mantissa of a decimal float: digits with at most one point, at least one
digit somewhere (`1`, `1.`, `.5`, `1.5` accepted; `.`, `` rejected). -/
def mantissaOk (cs : List Char) : Bool :=
  let intPart := cs.takeWhile (· ≠ '.')
  let rest := cs.dropWhile (· ≠ '.')
  match rest with
  | [] => allDigits intPart
  | _ :: frac =>
      (intPart.all Char.isDigit && frac.all Char.isDigit) &&
      (!intPart.isEmpty || !frac.isEmpty)

/-- Exponent part: optional sign then nonempty digits. -/
def exponentOk (cs : List Char) : Bool :=
  match cs with
  | '+' :: ds => allDigits ds
  | '-' :: ds => allDigits ds
  | ds => allDigits ds

/-- Strip one optional leading sign. -/
def stripSign (cs : List Char) : List Char :=
  match cs with
  | '+' :: rest => rest
  | '-' :: rest => rest
  | _ => cs

/-- Does `strconv.ParseFloat(s, 64)` succeed?  Models the decimal grammar
(optionally signed mantissa with optional `e`/`E` exponent) and the special
tokens `inf`, `infinity`, `nan` (case-insensitive, optionally signed); hex
floats and digit-separating underscores are not modelled — no caller in this
repository depends on them. -/
def parseFloatOk (s : String) : Bool :=
  let cs := stripSign s.data
  let lower := cs.map Char.toLower
  if lower = "inf".data || lower = "infinity".data || lower = "nan".data then
    true
  else
    let mant := cs.takeWhile (fun c => c ≠ 'e' && c ≠ 'E')
    let rest := cs.dropWhile (fun c => c ≠ 'e' && c ≠ 'E')
    match rest with
    | [] => mantissaOk mant
    | _ :: ex => mantissaOk mant && exponentOk ex

/-- Result of one Go handler invocation: the server state after the call, the
connection's (possibly re-tagged) `name` field, the bytes written to *other*
connections during the call, and the `(string, error)` return value. -/
structure HRes where
  st : ServerState
  connName : String
  fwd : List (ConnId × String)
  resp : Except String String
deriving Repr, DecidableEq

/-- `handleRegister` (src/handler.go lines 52-76): reject a name already in
the registry, otherwise create a fresh Station and tag the connection. -/
def handleRegister (st : ServerState) (cid : ConnId) (nm : String)
    (args : List String) : HRes :=
  match args with
  | [name, tipe] =>
    match lookupA st.stations name with
    | some _ => ⟨st, nm, [], .error (name ++ " already registered")⟩
    | none =>
      let station : Station := { metrics := [], c := cid, tipe := tipe, runs := [] }
      ⟨{ st with stations := setA st.stations name station }, name, [], .ok "ACK"⟩
  | _ => ⟨st, nm, [], .error (argCountMsg args)⟩

/-- The `LIST` response line (registry iterated in list order; Go map
iteration order is arbitrary, this is one deterministic refinement). -/
def listLine (stations : List (String × Station)) : String :=
  stations.foldl (fun acc p => acc ++ " " ++ p.1 ++ ":" ++ p.2.tipe) "LIST"

/-- `handleList` (src/handler.go lines 80-94). -/
def handleList (st : ServerState) (_cid : ConnId) (nm : String)
    (args : List String) : HRes :=
  match args with
  | [] => ⟨st, nm, [], .ok (listLine st.stations)⟩
  | _ => ⟨st, nm, [], .error (argCountMsg args)⟩

/-- The point sequence currently stored for `metricName` (a missing key reads
as the empty sequence, as a Go nil slice does). -/
def stationSeq (station : Station) (metricName : String) : List Metric :=
  (lookupA station.metrics metricName).getD []

/-- `handleMetric` (src/handler.go lines 100-134): parse the value, require a
registered connection, append the stamped point, and evict the oldest point
when the sequence exceeds `maxMetricPoints`. -/
def handleMetric (st : ServerState) (_cid : ConnId) (nm : String)
    (args : List String) : HRes :=
  match args with
  | [name, stringValue] =>
    if parseFloatOk stringValue then
      if nm = "" then
        ⟨st, nm, [], .error "client is not a station and cannot report telemetry"⟩
      else
        match lookupA st.stations nm with
        | none => ⟨st, nm, [], .error ("station " ++ nm ++ " is somehow unknown to us")⟩
        | some station =>
          let appended := stationSeq station name ++ [⟨st.now, stringValue⟩]
          let kept := if appended.length > st.maxMetricPoints then appended.tail else appended
          let station' := { station with metrics := setA station.metrics name kept }
          ⟨{ st with stations := setA st.stations nm station', now := st.now + 1 },
            nm, [], .ok "ACK"⟩
    else
      ⟨st, nm, [],
        .error ("strconv.ParseFloat: parsing \x22" ++ stringValue ++ "\x22: invalid syntax")⟩
  | _ => ⟨st, nm, [], .error (argCountMsg args)⟩

/-- The `METRICS <name>` response: the known metric names. -/
def metricNamesLine (name : String) (ms : List (String × List Metric)) : String :=
  ms.foldl (fun acc p => acc ++ " " ++ p.1) ("METRICS " ++ name)

/-- The `METRICS <name> <metric>` response: `ts:value` pairs in stored order
(the stored value token stands in for the `%f` rendering). -/
def metricSeriesLine (name metricName : String) (ms : List Metric) : String :=
  ms.foldl (fun acc m => acc ++ " " ++ toString m.ts ++ ":" ++ m.value)
    ("METRICS " ++ name ++ " " ++ metricName)

/-- `handleMetrics` (src/handler.go lines 140-181). -/
def handleMetrics (st : ServerState) (_cid : ConnId) (nm : String)
    (args : List String) : HRes :=
  match args with
  | [name] =>
    match lookupA st.stations name with
    | none => ⟨st, nm, [], .error ("station " ++ name ++ " is somehow unknown to us")⟩
    | some station => ⟨st, nm, [], .ok (metricNamesLine name station.metrics)⟩
  | [name, metricName] =>
    match lookupA st.stations name with
    | none => ⟨st, nm, [], .error ("station " ++ name ++ " is somehow unknown to us")⟩
    | some station =>
      match lookupA station.metrics metricName with
      | none =>
        ⟨st, nm, [],
          .error ("no known metric " ++ metricName ++ " on station " ++ name)⟩
      | some ms => ⟨st, nm, [], .ok (metricSeriesLine name metricName ms)⟩
  | _ => ⟨st, nm, [], .error (argCountMsg args)⟩

/-- The bytes `handleRun` writes to the station: `RUN <fn> <nonce>[ <param>]\n`
(the three `Fprintf` calls concatenated). -/
def runLine (fn nonce : String) (param : Option String) : String :=
  "RUN " ++ fn ++ " " ++ nonce ++
    (match param with | some p => " " ++ p | none => "") ++ "\n"

/-- `handleRun` (src/handler.go lines 189-229): look the station up, reject a
nonce already pending there, forward the RUN line to the station's owning
connection and record the pending run. -/
def handleRun (st : ServerState) (cid : ConnId) (nm : String)
    (args : List String) : HRes :=
  let go (name fn nonce : String) (param : Option String) : HRes :=
    match lookupA st.stations name with
    | none => ⟨st, nm, [], .error ("station " ++ name ++ " is somehow unknown to us")⟩
    | some station =>
      match lookupA station.runs nonce with
      | some _ => ⟨st, nm, [], .error ("nonce " ++ nonce ++ " already in use")⟩
      | none =>
        let station' := { station with runs := setA station.runs nonce ⟨cid, name⟩ }
        ⟨{ st with stations := setA st.stations name station' }, nm,
          [(station.c, runLine fn nonce param)], .ok "ACK"⟩
  match args with
  | [name, fn, nonce] => go name fn nonce none
  | [name, fn, nonce, p] => go name fn nonce (some p)
  | _ => ⟨st, nm, [], .error (argCountMsg args)⟩

/-- The bytes `handleDone` writes to the requester:
`DONE <stationName> <fn> <nonce>[ <result>]\n`. -/
def doneLine (stationName fn nonce : String) (result : Option String) : String :=
  "DONE " ++ stationName ++ " " ++ fn ++ " " ++ nonce ++
    (match result with | some r => " " ++ r | none => "") ++ "\n"

/-- `handleDone` (src/handler.go lines 236-276): require a registered station,
look up its pending run by nonce, forward the DONE line to the saved
requester and delete the entry. -/
def handleDone (st : ServerState) (_cid : ConnId) (nm : String)
    (args : List String) : HRes :=
  let go (fn nonce : String) (result : Option String) : HRes :=
    if nm = "" then
      ⟨st, nm, [], .error "client is not a station and cannot respond to RPCs"⟩
    else
      match lookupA st.stations nm with
      | none => ⟨st, nm, [], .error ("station " ++ nm ++ " is somehow unknown to us")⟩
      | some station =>
        match lookupA station.runs nonce with
        | none => ⟨st, nm, [], .error ("unknown nonce " ++ nonce)⟩
        | some r =>
          let station' := { station with runs := eraseA station.runs nonce }
          ⟨{ st with stations := setA st.stations nm station' }, nm,
            [(r.client, doneLine r.name fn nonce result)], .ok "ACK"⟩
  match args with
  | [fn, nonce] => go fn nonce none
  | [fn, nonce, res] => go fn nonce (some res)
  | _ => ⟨st, nm, [], .error (argCountMsg args)⟩

/-- The bytes `handleError` writes to the requester:
`ERR <stationName> <fn> <nonce>\n` — never a result field. -/
def errLine (stationName fn nonce : String) : String :=
  "ERR " ++ stationName ++ " " ++ fn ++ " " ++ nonce ++ "\n"

/-- `handleError` (src/handler.go lines 282-315): like `handleDone` but with
exactly two arguments and an `ERR` line forwarded. -/
def handleErrorCmd (st : ServerState) (_cid : ConnId) (nm : String)
    (args : List String) : HRes :=
  match args with
  | [fn, nonce] =>
    if nm = "" then
      ⟨st, nm, [], .error "client is not a station and cannot respond to RPCs"⟩
    else
      match lookupA st.stations nm with
      | none => ⟨st, nm, [], .error ("station " ++ nm ++ " is somehow unknown to us")⟩
      | some station =>
        match lookupA station.runs nonce with
        | none => ⟨st, nm, [], .error ("unknown nonce " ++ nonce)⟩
        | some r =>
          let station' := { station with runs := eraseA station.runs nonce }
          ⟨{ st with stations := setA st.stations nm station' }, nm,
            [(r.client, errLine r.name fn nonce)], .ok "ACK"⟩
  | _ => ⟨st, nm, [], .error (argCountMsg args)⟩

/-- `strings.Split(s, " ")` on the character list: split at every single
space; the empty input yields the single empty token. -/
def splitChars : List Char → List (List Char)
  | [] => [[]]
  | c :: rest =>
    if c = ' ' then [] :: splitChars rest
    else
      match splitChars rest with
      | [] => [[c]]
      | t :: ts => (c :: t) :: ts

/-- Go `strings.Split(line, " ")`. -/
def splitSp (s : String) : List String :=
  (splitChars s.data).map (fun cs => String.mk cs)

/-- The outcome of dispatching one input line (src/handler.go, one iteration
of the scanner loop in `handle`): the state and connection tag afterwards,
the bytes forwarded to other connections, the exact line written back on this
connection, and whether the line was answered with an error. -/
structure StepRes where
  st : ServerState
  connName : String
  fwd : List (ConnId × String)
  wire : String
  failed : Bool
deriving Repr, DecidableEq

/-- One iteration of the dispatcher loop (src/handler.go lines 326-366):
split the line on single spaces, select the handler by the first token,
answer `ERR UNRECOGNIZED CMD` for an unknown token and the generic `ERR` for
a handler error, else echo the handler's response line. -/
def dispatch (st : ServerState) (cid : ConnId) (nm : String)
    (line : String) : StepRes :=
  match splitSp line with
  | [] => ⟨st, nm, [], "ERR\n", true⟩
  | cmdName :: rest =>
    let hres? : Option HRes :=
      match cmdName with
      | "LIST" => some (handleList st cid nm rest)
      | "REGISTER" => some (handleRegister st cid nm rest)
      | "METRIC" => some (handleMetric st cid nm rest)
      | "METRICS" => some (handleMetrics st cid nm rest)
      | "RUN" => some (handleRun st cid nm rest)
      | "DONE" => some (handleDone st cid nm rest)
      | "ERR" => some (handleErrorCmd st cid nm rest)
      | _ => none
    match hres? with
    | none => ⟨st, nm, [], "ERR UNRECOGNIZED CMD\n", true⟩
    | some h =>
      match h.resp with
      | .error _ => ⟨h.st, h.connName, h.fwd, "ERR\n", true⟩
      | .ok r => ⟨h.st, h.connName, h.fwd, r ++ "\n", false⟩

/-- The scanner loop of `handle`: dispatch each line in order, accumulating
every write (forwarded bytes, then the response on this connection) and
threading the state and the connection's tag.  The loop never stops early:
error responses fall through `continue` in the Go code. -/
def handleLines (st : ServerState) (cid : ConnId) (nm : String) :
    List String → ServerState × String × List (ConnId × String)
  | [] => (st, nm, [])
  | line :: rest =>
    let r := dispatch st cid nm line
    let t := handleLines r.st cid r.connName rest
    (t.1, t.2.1, (r.fwd ++ [(cid, r.wire)]) ++ t.2.2)

/-- The cleanup at the end of `handle` (src/handler.go lines 374-385): a
connection that had registered is removed from the registry; nothing is
written to any connection. -/
def disconnect (st : ServerState) (nm : String) : ServerState :=
  if nm = "" then st
  else
    match lookupA st.stations nm with
    | some _ => { st with stations := eraseA st.stations nm }
    | none => st

/-- A whole session of `handle` on a fresh (untagged) connection: the scanner
loop over the delivered lines, then the disconnect cleanup.  Returns the
final server state and every write the session performed. -/
def handleConn (st : ServerState) (cid : ConnId) (lines : List String) :
    ServerState × List (ConnId × String) :=
  let t := handleLines st cid "" lines
  (disconnect t.1 t.2.1, t.2.2)

/-- The server as started by `NewServer`: empty registry. -/
def initState (maxMetricPoints : Nat) : ServerState :=
  { stations := [], maxMetricPoints := maxMetricPoints, now := 0 }

/-- Whole-server state: the shared `Server` plus the tag (`clientConn.name`)
of every live connection. -/
structure Global where
  srv : ServerState
  conns : List (ConnId × String)
deriving Repr, DecidableEq

/-- The tag of a connection (untagged connections read as `""`). -/
def connTag (g : Global) (cid : ConnId) : String :=
  (lookupA g.conns cid).getD ""

/-- An observable event: one input line arriving on a connection, or a
connection's stream terminating. -/
inductive Event where
  | line (cid : ConnId) (s : String)
  | disc (cid : ConnId)
deriving Repr, DecidableEq

/-- Whole-server step: a line is dispatched by that connection's handler
loop; a disconnect runs the cleanup of `handle` and forgets the tag. -/
def gstep (g : Global) : Event → Global
  | .line cid s =>
    let r := dispatch g.srv cid (connTag g cid) s
    { srv := r.st, conns := setA g.conns cid r.connName }
  | .disc cid =>
    { srv := disconnect g.srv (connTag g cid),
      conns := setA g.conns cid "" }

/-- The whole-server state reached from a fresh server after a sequence of
events. -/
def gRun (maxMetricPoints : Nat) (evs : List Event) : Global :=
  evs.foldl gstep { srv := initState maxMetricPoints, conns := [] }

/-- The pending run stored under `nonce` at station `stationName`, if any. -/
def runsOf (st : ServerState) (stationName nonce : String) : Option Run :=
  match lookupA st.stations stationName with
  | some station => lookupA station.runs nonce
  | none => none

/-- The point sequence stored for `metricName` at station `stationName`. -/
def seqOf (st : ServerState) (stationName metricName : String) : List Metric :=
  match lookupA st.stations stationName with
  | some station => stationSeq station metricName
  | none => []

/-- Did the handler return a Go error? -/
def respFailed : Except String String → Bool
  | .error _ => true
  | .ok _ => false

/-- Every pending run stored under a registry key records exactly that key
as its station name. -/
def runsNamedL (l : List (String × Station)) : Prop :=
  ∀ k station, lookupA l k = some station →
    ∀ n r, lookupA station.runs n = some r → r.name = k

/-- `runsNamedL` for the whole server state. -/
def RunNamesInv (st : ServerState) : Prop :=
  runsNamedL st.stations

/-- Every stored metric sequence in the registry has length at most `b`. -/
def metricsBoundedL (b : Nat) (l : List (String × Station)) : Prop :=
  ∀ k station, lookupA l k = some station →
    ∀ m seq, lookupA station.metrics m = some seq → seq.length ≤ b

/-- The configured cap is `b` and every stored metric sequence obeys it. -/
def BoundedBy (b : Nat) (st : ServerState) : Prop :=
  st.maxMetricPoints = b ∧ metricsBoundedL b st.stations

/-- The argument list of a RUN command with its optional parameter. -/
def runArgs (name fn nonce : String) (param : Option String) : List String :=
  [name, fn, nonce] ++ (match param with | some p => [p] | none => [])

/-- State with one registered station, used to witness `c1_register_rebind`. -/
def c1St : ServerState :=
  { stations := [("water", { metrics := [], c := 0, tipe := "source", runs := [] })],
    maxMetricPoints := 100, now := 0 }

/-- State with four recorded points for `w`/`level`, used to witness
`c2_bounded_metrics` on the spec's `1,2,3,4,5` scenario. -/
def c2St : ServerState :=
  { stations := [("w",
      { metrics := [("level", [⟨0, "1"⟩, ⟨1, "2"⟩, ⟨2, "3"⟩, ⟨3, "4"⟩])],
        c := 0, tipe := "t", runs := [] })],
    maxMetricPoints := 4, now := 4 }

/-- State with one pending run (`n1` at station `water`, requester 7), used
to witness the completion theorems. -/
def c3St : ServerState :=
  { stations := [("water",
      { metrics := [], c := 0, tipe := "source",
        runs := [("n1", { client := 7, name := "water" })] })],
    maxMetricPoints := 4, now := 0 }

/-- State with two registered stations, used to witness `c4_run_routing`. -/
def c4St : ServerState :=
  { stations :=
      [("water", { metrics := [], c := 0, tipe := "source", runs := [] }),
       ("heat", { metrics := [], c := 1, tipe := "pump", runs := [] })],
    maxMetricPoints := 4, now := 0 }

theorem lookupA_setA_same {κ α : Type} [DecidableEq κ]
    (l : List (κ × α)) (k : κ) (v : α) : lookupA (setA l k v) k = some v := by
  induction l with
  | nil => simp [setA, lookupA]
  | cons hd tl ih =>
    obtain ⟨k', v'⟩ := hd
    by_cases h : k' = k <;> simp [setA, lookupA, h, ih]

theorem lookupA_setA_other {κ α : Type} [DecidableEq κ]
    (l : List (κ × α)) (k k' : κ) (v : α) (hne : k ≠ k') :
    lookupA (setA l k v) k' = lookupA l k' := by
  induction l with
  | nil => simp [setA, lookupA, hne]
  | cons hd tl ih =>
    obtain ⟨k0, v0⟩ := hd
    by_cases h : k0 = k
    · subst h; simp [setA, lookupA, hne]
    · simp [setA, lookupA, h, ih]

theorem lookupA_eraseA_same {κ α : Type} [DecidableEq κ]
    (l : List (κ × α)) (k : κ) : lookupA (eraseA l k) k = none := by
  induction l with
  | nil => simp [eraseA, lookupA]
  | cons hd tl ih =>
    obtain ⟨k', v'⟩ := hd
    by_cases h : k' = k <;> simp [eraseA, lookupA, h, ih]

theorem lookupA_eraseA_other {κ α : Type} [DecidableEq κ]
    (l : List (κ × α)) (k k' : κ) (hne : k ≠ k') :
    lookupA (eraseA l k) k' = lookupA l k' := by
  induction l with
  | nil => simp [eraseA, lookupA]
  | cons hd tl ih =>
    obtain ⟨k0, v0⟩ := hd
    by_cases h : k0 = k
    · subst h; simp [eraseA, lookupA, hne, ih]
    · by_cases h' : k0 = k'
      · subst h'; simp [eraseA, lookupA, h]
      · simp [eraseA, lookupA, h, h', ih]

theorem lookupA_setA {κ α : Type} [DecidableEq κ]
    (l : List (κ × α)) (k k' : κ) (v : α) :
    lookupA (setA l k v) k' = if k = k' then some v else lookupA l k' := by
  by_cases h : k = k'
  · subst h; simp [lookupA_setA_same]
  · simp [h, lookupA_setA_other l k k' v h]

theorem lookupA_eraseA {κ α : Type} [DecidableEq κ]
    (l : List (κ × α)) (k k' : κ) :
    lookupA (eraseA l k) k' = if k = k' then none else lookupA l k' := by
  by_cases h : k = k'
  · subst h; simp [lookupA_eraseA_same]
  · simp [h, lookupA_eraseA_other l k k' h]

/-- C9: an empty input line splits into the single empty token, which matches
no entry of the dispatch table, so it is answered `ERR UNRECOGNIZED CMD` and
the loop continues on the unchanged state: the remaining lines are processed
exactly as they would have been without the blank line. -/
theorem c9_empty_line (st : ServerState) (cid : ConnId) (nm : String)
    (rest : List String) :
    splitSp "" = [""] ∧
    dispatch st cid nm "" = ⟨st, nm, [], "ERR UNRECOGNIZED CMD\n", true⟩ ∧
    handleLines st cid nm ("" :: rest) =
      ((handleLines st cid nm rest).1, (handleLines st cid nm rest).2.1,
        (cid, "ERR UNRECOGNIZED CMD\n") :: (handleLines st cid nm rest).2.2) := by
  have hsplit : splitSp "" = [""] := by decide
  have hd : dispatch st cid nm "" = ⟨st, nm, [], "ERR UNRECOGNIZED CMD\n", true⟩ := by
    simp [dispatch, hsplit]
  exact ⟨hsplit, hd, by simp [handleLines, hd]⟩

/-- C1 (counterexample): registration is *not* a one-time transition per
connection.  A connection that registered as `water` can issue a second
REGISTER for the unused name `heat`: the handler answers ACK and re-tags the
connection with the new name. -/
theorem c1_second_register_succeeds :
    (handleRegister (initState 100) 0 "" ["water", "source"]).resp = .ok "ACK" ∧
    (handleRegister (initState 100) 0 "" ["water", "source"]).connName = "water" ∧
    (handleRegister (handleRegister (initState 100) 0 "" ["water", "source"]).st
        0 "water" ["heat", "pump"]).resp = .ok "ACK" ∧
    (handleRegister (handleRegister (initState 100) 0 "" ["water", "source"]).st
        0 "water" ["heat", "pump"]).connName = "heat" := by decide

/-- C1 (amended): a later REGISTER on an already-registered connection fails
(and leaves the state and the connection's tag unchanged) exactly when the
requested name is already present in the registry — in particular when it is
the connection's own current name; a REGISTER for a name absent from the
registry succeeds even on a registered connection and re-tags it. -/
theorem c1_register_rebind (st : ServerState) (cid : ConnId)
    (nm name tipe : String) (hreg : nm ≠ "") :
    (∀ s, lookupA st.stations name = some s →
      handleRegister st cid nm [name, tipe]
        = ⟨st, nm, [], .error (name ++ " already registered")⟩) ∧
    (lookupA st.stations name = none →
      (handleRegister st cid nm [name, tipe]).resp = .ok "ACK" ∧
      (handleRegister st cid nm [name, tipe]).connName = name) := by
  constructor
  · intro s hs; simp [handleRegister, hs]
  · intro hn; simp [handleRegister, hn]

theorem c1_register_rebind_witness :
    handleRegister c1St 0 "water" ["water", "barrel"]
      = ⟨c1St, "water", [], .error ("water" ++ " already registered")⟩ ∧
    (handleRegister c1St 0 "water" ["heat", "pump"]).resp = .ok "ACK" ∧
    (handleRegister c1St 0 "water" ["heat", "pump"]).connName = "heat" := by
  have h1 := c1_register_rebind c1St 0 "water" "water" "barrel" (by decide)
  have h2 := c1_register_rebind c1St 0 "water" "heat" "pump" (by decide)
  exact ⟨h1.1 { metrics := [], c := 0, tipe := "source", runs := [] } (by decide),
    (h2.2 (by decide)).1, (h2.2 (by decide)).2⟩

theorem metricsBoundedL_setA (b : Nat) (l : List (String × Station))
    (k0 : String) (s0 : Station) (hinv : metricsBoundedL b l)
    (hs : ∀ m seq, lookupA s0.metrics m = some seq → seq.length ≤ b) :
    metricsBoundedL b (setA l k0 s0) := by
  intro k station hlk m seq hm
  rw [lookupA_setA] at hlk
  by_cases hk : k0 = k
  · rw [if_pos hk] at hlk; cases hlk; exact hs m seq hm
  · rw [if_neg hk] at hlk; exact hinv k station hlk m seq hm

theorem metricsBoundedL_eraseA (b : Nat) (l : List (String × Station))
    (k0 : String) (hinv : metricsBoundedL b l) :
    metricsBoundedL b (eraseA l k0) := by
  intro k station hlk m seq hm
  rw [lookupA_eraseA] at hlk
  by_cases hk : k0 = k
  · rw [if_pos hk] at hlk; cases hlk
  · rw [if_neg hk] at hlk; exact hinv k station hlk m seq hm

theorem boundedBy_register (b : Nat) (st : ServerState) (cid : ConnId)
    (nm : String) (args : List String) (hinv : BoundedBy b st) :
    BoundedBy b (handleRegister st cid nm args).st := by
  rcases args with _ | ⟨a, _ | ⟨c, _ | ⟨d, rest⟩⟩⟩
  · exact hinv
  · exact hinv
  · cases hl : lookupA st.stations a with
    | some s => simp [handleRegister, hl]; exact hinv
    | none =>
      simp only [handleRegister, hl]
      exact ⟨hinv.1, metricsBoundedL_setA _ _ _ _ hinv.2
        (by intro m seq hm; cases hm)⟩
  · exact hinv

theorem boundedBy_metric (b : Nat) (st : ServerState) (cid : ConnId)
    (nm : String) (args : List String) (hinv : BoundedBy b st) :
    BoundedBy b (handleMetric st cid nm args).st := by
  rcases args with _ | ⟨a, _ | ⟨v, _ | ⟨c, rest⟩⟩⟩
  · exact hinv
  · exact hinv
  · by_cases hv : parseFloatOk v
    · by_cases hn : nm = ""
      · simp [handleMetric, hv, hn]; exact hinv
      · cases hl : lookupA st.stations nm with
        | none => simp [handleMetric, hv, hn, hl]; exact hinv
        | some station =>
          simp [handleMetric, hv, hn, hl]
          refine ⟨hinv.1, metricsBoundedL_setA _ _ _ _ hinv.2 ?_⟩
          intro m seq hm
          rw [lookupA_setA] at hm
          by_cases hmm : a = m
          · rw [if_pos hmm] at hm
            have hold : (stationSeq station a).length ≤ b := by
              unfold stationSeq
              cases hx : lookupA station.metrics a with
              | none => simp
              | some sq => simpa using hinv.2 nm station hl a sq hx
            have hb : st.maxMetricPoints = b := hinv.1
            injection hm with hm'
            subst hm'
            by_cases hc : st.maxMetricPoints < (stationSeq station a).length + 1
            · rw [if_pos hc]
              simp only [List.length_tail, List.length_append,
                List.length_cons, List.length_nil]
              omega
            · rw [if_neg hc]
              simp only [List.length_append, List.length_cons, List.length_nil]
              omega
          · rw [if_neg hmm] at hm
            exact hinv.2 nm station hl m seq hm
    · simp [handleMetric, hv]; exact hinv
  · exact hinv

theorem boundedBy_list (b : Nat) (st : ServerState) (cid : ConnId)
    (nm : String) (args : List String) (hinv : BoundedBy b st) :
    BoundedBy b (handleList st cid nm args).st := by
  rcases args with _ | ⟨a, rest⟩ <;> simp [handleList] <;> exact hinv

theorem boundedBy_metrics (b : Nat) (st : ServerState) (cid : ConnId)
    (nm : String) (args : List String) (hinv : BoundedBy b st) :
    BoundedBy b (handleMetrics st cid nm args).st := by
  rcases args with _ | ⟨a, _ | ⟨c, _ | ⟨d, rest⟩⟩⟩
  · exact hinv
  · cases hl : lookupA st.stations a <;> simp [handleMetrics, hl] <;> exact hinv
  · cases hl : lookupA st.stations a with
    | none => simp [handleMetrics, hl]; exact hinv
    | some stn =>
      cases hm : lookupA stn.metrics c <;> simp [handleMetrics, hl, hm] <;>
        exact hinv
  · exact hinv

theorem boundedBy_run (b : Nat) (st : ServerState) (cid : ConnId)
    (nm : String) (args : List String) (hinv : BoundedBy b st) :
    BoundedBy b (handleRun st cid nm args).st := by
  have key : ∀ (a c d : String) (param : Option String),
      BoundedBy b (handleRun st cid nm (runArgs a c d param)).st := by
    intro a c d param
    cases hl : lookupA st.stations a with
    | none => cases param <;> simp [handleRun, runArgs, hl] <;> exact hinv
    | some station =>
      cases hr : lookupA station.runs d with
      | some r0 => cases param <;> simp [handleRun, runArgs, hl, hr] <;> exact hinv
      | none =>
        have hKept : BoundedBy b { st with
            stations := setA st.stations a
              { station with
                  runs := setA station.runs d { client := cid, name := a } } } :=
          ⟨hinv.1, metricsBoundedL_setA _ _ _ _ hinv.2
            (fun m seq hm => hinv.2 a station hl m seq hm)⟩
        cases param <;> simpa [handleRun, runArgs, hl, hr] using hKept
  rcases args with _ | ⟨a, _ | ⟨c, _ | ⟨d, _ | ⟨e, _ | ⟨f, rest⟩⟩⟩⟩⟩
  · exact hinv
  · exact hinv
  · exact hinv
  · exact key a c d none
  · exact key a c d (some e)
  · exact hinv

theorem boundedBy_done (b : Nat) (st : ServerState) (cid : ConnId)
    (nm : String) (args : List String) (hinv : BoundedBy b st) :
    BoundedBy b (handleDone st cid nm args).st := by
  have key : ∀ (a c : String) (result : Option String),
      BoundedBy b (handleDone st cid nm
        ([a, c] ++ (match result with | some x => [x] | none => []))).st := by
    intro a c result
    by_cases hn : nm = ""
    · cases result <;> simp [handleDone, hn] <;> exact hinv
    · cases hl : lookupA st.stations nm with
      | none => cases result <;> simp [handleDone, hn, hl] <;> exact hinv
      | some station =>
        cases hr : lookupA station.runs c with
        | none => cases result <;> simp [handleDone, hn, hl, hr] <;> exact hinv
        | some r0 =>
          have hKept : BoundedBy b { st with
              stations := setA st.stations nm
                { station with runs := eraseA station.runs c } } :=
            ⟨hinv.1, metricsBoundedL_setA _ _ _ _ hinv.2
              (fun m seq hm => hinv.2 nm station hl m seq hm)⟩
          cases result <;> simpa [handleDone, hn, hl, hr] using hKept
  rcases args with _ | ⟨a, _ | ⟨c, _ | ⟨d, _ | ⟨e, rest⟩⟩⟩⟩
  · exact hinv
  · exact hinv
  · exact key a c none
  · exact key a c (some d)
  · exact hinv

theorem boundedBy_errcmd (b : Nat) (st : ServerState) (cid : ConnId)
    (nm : String) (args : List String) (hinv : BoundedBy b st) :
    BoundedBy b (handleErrorCmd st cid nm args).st := by
  rcases args with _ | ⟨a, _ | ⟨c, _ | ⟨d, rest⟩⟩⟩
  · exact hinv
  · exact hinv
  · by_cases hn : nm = ""
    · simp [handleErrorCmd, hn]; exact hinv
    · cases hl : lookupA st.stations nm with
      | none => simp [handleErrorCmd, hn, hl]; exact hinv
      | some station =>
        cases hr : lookupA station.runs c with
        | none => simp [handleErrorCmd, hn, hl, hr]; exact hinv
        | some r0 =>
          have hKept : BoundedBy b { st with
              stations := setA st.stations nm
                { station with runs := eraseA station.runs c } } :=
            ⟨hinv.1, metricsBoundedL_setA _ _ _ _ hinv.2
              (fun m seq hm => hinv.2 nm station hl m seq hm)⟩
          simpa [handleErrorCmd, hn, hl, hr] using hKept
  · exact hinv

theorem boundedBy_dispatch (b : Nat) (st : ServerState) (cid : ConnId)
    (nm : String) (line : String) (hinv : BoundedBy b st) :
    BoundedBy b (dispatch st cid nm line).st := by
  rcases hp : splitSp line with _ | ⟨cmd, rest⟩
  · simp [dispatch, hp]; exact hinv
  · by_cases e1 : cmd = "LIST"
    · subst e1
      cases hr : (handleList st cid nm rest).resp <;>
        simp [dispatch, hp, hr] <;>
        simpa [hr] using boundedBy_list b st cid nm rest hinv
    · by_cases e2 : cmd = "REGISTER"
      · subst e2
        cases hr : (handleRegister st cid nm rest).resp <;>
          simp [dispatch, hp, hr] <;>
          simpa [hr] using boundedBy_register b st cid nm rest hinv
      · by_cases e3 : cmd = "METRIC"
        · subst e3
          cases hr : (handleMetric st cid nm rest).resp <;>
            simp [dispatch, hp, hr] <;>
            simpa [hr] using boundedBy_metric b st cid nm rest hinv
        · by_cases e4 : cmd = "METRICS"
          · subst e4
            cases hr : (handleMetrics st cid nm rest).resp <;>
              simp [dispatch, hp, hr] <;>
              simpa [hr] using boundedBy_metrics b st cid nm rest hinv
          · by_cases e5 : cmd = "RUN"
            · subst e5
              cases hr : (handleRun st cid nm rest).resp <;>
                simp [dispatch, hp, hr] <;>
                simpa [hr] using boundedBy_run b st cid nm rest hinv
            · by_cases e6 : cmd = "DONE"
              · subst e6
                cases hr : (handleDone st cid nm rest).resp <;>
                  simp [dispatch, hp, hr] <;>
                  simpa [hr] using boundedBy_done b st cid nm rest hinv
              · by_cases e7 : cmd = "ERR"
                · subst e7
                  cases hr : (handleErrorCmd st cid nm rest).resp <;>
                    simp [dispatch, hp, hr] <;>
                    simpa [hr] using boundedBy_errcmd b st cid nm rest hinv
                · simp [dispatch, hp, e1, e2, e3, e4, e5, e6, e7]
                  exact hinv

theorem boundedBy_gstep (b : Nat) (g : Global) (e : Event)
    (hinv : BoundedBy b g.srv) : BoundedBy b (gstep g e).srv := by
  cases e with
  | line cid s => exact boundedBy_dispatch b g.srv cid (connTag g cid) s hinv
  | disc cid =>
    show BoundedBy b (disconnect g.srv (connTag g cid))
    unfold disconnect
    by_cases hn : connTag g cid = ""
    · rw [if_pos hn]; exact hinv
    · rw [if_neg hn]
      cases hl : lookupA g.srv.stations (connTag g cid) with
      | none => exact hinv
      | some s => exact ⟨hinv.1, metricsBoundedL_eraseA _ _ _ hinv.2⟩

theorem boundedBy_gRun (maxP : Nat) (evs : List Event) :
    BoundedBy maxP (gRun maxP evs).srv := by
  have hfold : ∀ (l : List Event) (g : Global), BoundedBy maxP g.srv →
      BoundedBy maxP (l.foldl gstep g).srv := by
    intro l
    induction l with
    | nil => intro g hg; exact hg
    | cons e t ih =>
      intro g hg
      exact ih _ (boundedBy_gstep maxP g e hg)
  refine hfold evs _ ⟨rfl, ?_⟩
  intro k station hlk
  cases hlk

/-- C2: in every reachable server state no stored metric sequence exceeds
`maxMetricPoints`; recording a metric appends the new point and, exactly when
the sequence would exceed the cap, evicts the single oldest point (FIFO), so
with `maxMetricPoints = 4` recording `1,2,3,4,5` leaves `[2,3,4,5]`. -/
theorem c2_bounded_metrics (st : ServerState) (cid : ConnId)
    (nm mName v : String) (station : Station)
    (hreg : nm ≠ "") (hst : lookupA st.stations nm = some station)
    (hv : parseFloatOk v = true)
    (hlen : (seqOf st nm mName).length ≤ st.maxMetricPoints) :
    (∀ maxP evs k stat m seq,
      lookupA (gRun maxP evs).srv.stations k = some stat →
      lookupA stat.metrics m = some seq → seq.length ≤ maxP) ∧
    (handleMetric st cid nm [mName, v]).resp = .ok "ACK" ∧
    (seqOf (handleMetric st cid nm [mName, v]).st nm mName).length
        ≤ st.maxMetricPoints ∧
    seqOf (handleMetric st cid nm [mName, v]).st nm mName =
      (if st.maxMetricPoints < (seqOf st nm mName).length + 1
       then (seqOf st nm mName ++ [({ ts := st.now, value := v } : Metric)]).tail
       else seqOf st nm mName ++ [({ ts := st.now, value := v } : Metric)]) := by
  have hseq : seqOf st nm mName = stationSeq station mName := by
    simp [seqOf, hst]
  have hm : handleMetric st cid nm [mName, v] =
      (⟨{ st with
          stations := setA st.stations nm
            { station with
                metrics := setA station.metrics mName
                  (if st.maxMetricPoints < (stationSeq station mName).length + 1
                   then (stationSeq station mName
                          ++ [({ ts := st.now, value := v } : Metric)]).tail
                   else stationSeq station mName
                          ++ [({ ts := st.now, value := v } : Metric)]) },
          now := st.now + 1 },
        nm, [], .ok "ACK"⟩ : HRes) := by
    simp [handleMetric, hv, hreg, hst]
  have hseq' : seqOf (handleMetric st cid nm [mName, v]).st nm mName =
      (if st.maxMetricPoints < (stationSeq station mName).length + 1
       then (stationSeq station mName
              ++ [({ ts := st.now, value := v } : Metric)]).tail
       else stationSeq station mName
              ++ [({ ts := st.now, value := v } : Metric)]) := by
    rw [hm]
    simp [seqOf, lookupA_setA_same, stationSeq]
  have hlen' : (stationSeq station mName).length ≤ st.maxMetricPoints := by
    rw [← hseq]; exact hlen
  refine ⟨?_, by rw [hm], ?_, ?_⟩
  · intro maxP evs k stat m seq h1 h2
    exact (boundedBy_gRun maxP evs).2 k stat h1 m seq h2
  · rw [hseq']
    by_cases hc : st.maxMetricPoints < (stationSeq station mName).length + 1
    · rw [if_pos hc]
      simp only [List.length_tail, List.length_append, List.length_cons,
        List.length_nil]
      omega
    · rw [if_neg hc]
      simp only [List.length_append, List.length_cons, List.length_nil]
      omega
  · rw [hseq]
    exact hseq'

theorem c2_bounded_metrics_witness :
    seqOf (handleMetric c2St 0 "w" ["level", "5"]).st "w" "level"
      = [⟨1, "2"⟩, ⟨2, "3"⟩, ⟨3, "4"⟩, ⟨4, "5"⟩] ∧
    (seqOf (handleMetric c2St 0 "w" ["level", "5"]).st "w" "level").length ≤ 4 := by
  have h := c2_bounded_metrics c2St 0 "w" "level" "5"
    { metrics := [("level", [⟨0, "1"⟩, ⟨1, "2"⟩, ⟨2, "3"⟩, ⟨3, "4"⟩])],
      c := 0, tipe := "t", runs := [] }
    (by decide) (by decide) (by decide) (by decide)
  exact ⟨by decide, h.2.2.1⟩

/-- C3: a pending run is consumed at most once.  The first DONE — and,
symmetrically, the first ERR — from the registered station holding the nonce
answers ACK and removes the entry; on either resulting state the same nonce,
like any nonce not pending at that station, is rejected with the
`unknown nonce` error by both DONE and ERR, with the state, the connection
tag and the forwarded writes all unchanged. -/
theorem c3_pending_consumed_once (st : ServerState) (cid : ConnId)
    (nm fn nonce : String) (r : Run)
    (hreg : nm ≠ "") (hrun : runsOf st nm nonce = some r) :
    ((handleDone st cid nm [fn, nonce]).resp = .ok "ACK" ∧
     runsOf (handleDone st cid nm [fn, nonce]).st nm nonce = none ∧
     handleDone (handleDone st cid nm [fn, nonce]).st cid nm [fn, nonce]
       = ⟨(handleDone st cid nm [fn, nonce]).st, nm, [],
           .error ("unknown nonce " ++ nonce)⟩ ∧
     handleErrorCmd (handleDone st cid nm [fn, nonce]).st cid nm [fn, nonce]
       = ⟨(handleDone st cid nm [fn, nonce]).st, nm, [],
           .error ("unknown nonce " ++ nonce)⟩) ∧
    ((handleErrorCmd st cid nm [fn, nonce]).resp = .ok "ACK" ∧
     runsOf (handleErrorCmd st cid nm [fn, nonce]).st nm nonce = none ∧
     handleDone (handleErrorCmd st cid nm [fn, nonce]).st cid nm [fn, nonce]
       = ⟨(handleErrorCmd st cid nm [fn, nonce]).st, nm, [],
           .error ("unknown nonce " ++ nonce)⟩ ∧
     handleErrorCmd (handleErrorCmd st cid nm [fn, nonce]).st cid nm [fn, nonce]
       = ⟨(handleErrorCmd st cid nm [fn, nonce]).st, nm, [],
           .error ("unknown nonce " ++ nonce)⟩) ∧
    (∀ n', runsOf st nm n' = none →
      handleDone st cid nm [fn, n'] = ⟨st, nm, [], .error ("unknown nonce " ++ n')⟩ ∧
      handleErrorCmd st cid nm [fn, n'] = ⟨st, nm, [], .error ("unknown nonce " ++ n')⟩) := by
  have hstation : ∃ station, lookupA st.stations nm = some station := by
    unfold runsOf at hrun
    cases hx : lookupA st.stations nm with
    | none => rw [hx] at hrun; cases hrun
    | some s => exact ⟨s, rfl⟩
  obtain ⟨station, hst⟩ := hstation
  have hr : lookupA station.runs nonce = some r := by
    unfold runsOf at hrun; rw [hst] at hrun; exact hrun
  have h1 : handleDone st cid nm [fn, nonce] =
      (⟨{ st with
          stations := setA st.stations nm
            { station with runs := eraseA station.runs nonce } }, nm,
          [(r.client, doneLine r.name fn nonce none)], .ok "ACK"⟩ : HRes) := by
    simp [handleDone, hreg, hst, hr, doneLine]
  have h2 : handleErrorCmd st cid nm [fn, nonce] =
      (⟨{ st with
          stations := setA st.stations nm
            { station with runs := eraseA station.runs nonce } }, nm,
          [(r.client, errLine r.name fn nonce)], .ok "ACK"⟩ : HRes) := by
    simp [handleErrorCmd, hreg, hst, hr, errLine]
  refine ⟨⟨by rw [h1], ?_, ?_, ?_⟩, ⟨by rw [h2], ?_, ?_, ?_⟩, ?_⟩
  · rw [h1]
    simp [runsOf, lookupA_setA_same, lookupA_eraseA_same]
  · rw [h1]
    simp [handleDone, hreg, lookupA_setA_same, lookupA_eraseA_same]
  · rw [h1]
    simp [handleErrorCmd, hreg, lookupA_setA_same, lookupA_eraseA_same]
  · rw [h2]
    simp [runsOf, lookupA_setA_same, lookupA_eraseA_same]
  · rw [h2]
    simp [handleDone, hreg, lookupA_setA_same, lookupA_eraseA_same]
  · rw [h2]
    simp [handleErrorCmd, hreg, lookupA_setA_same, lookupA_eraseA_same]
  · intro n' hn'
    have hrn : lookupA station.runs n' = none := by
      unfold runsOf at hn'; rw [hst] at hn'; exact hn'
    exact ⟨by simp [handleDone, hreg, hst, hrn],
           by simp [handleErrorCmd, hreg, hst, hrn]⟩

theorem c3_pending_consumed_once_witness :
    (handleDone c3St 0 "water" ["test", "n1"]).resp = .ok "ACK" ∧
    runsOf (handleDone c3St 0 "water" ["test", "n1"]).st "water" "n1" = none ∧
    (handleDone (handleDone c3St 0 "water" ["test", "n1"]).st 0 "water"
        ["test", "n1"]).resp = .error ("unknown nonce " ++ "n1") ∧
    (handleErrorCmd c3St 0 "water" ["test", "n1"]).resp = .ok "ACK" ∧
    runsOf (handleErrorCmd c3St 0 "water" ["test", "n1"]).st "water" "n1" = none ∧
    (handleErrorCmd (handleErrorCmd c3St 0 "water" ["test", "n1"]).st 0 "water"
        ["test", "n1"]).resp = .error ("unknown nonce " ++ "n1") ∧
    handleDone c3St 0 "water" ["test", "n2"]
      = ⟨c3St, "water", [], .error ("unknown nonce " ++ "n2")⟩ := by
  have h := c3_pending_consumed_once c3St 0 "water" "test" "n1"
    { client := 7, name := "water" } (by decide) (by decide)
  refine ⟨h.1.1, h.1.2.1, ?_, h.2.1.1, h.2.1.2.1, ?_,
    (h.2.2 "n2" (by decide)).1⟩
  · rw [h.1.2.2.1]
  · rw [h.2.1.2.2.2]

/-- C4: RUN fails with the unknown-station error when the target name is not
registered, fails with the nonce-in-use error when the nonce is already
pending at that station (both failures change nothing and write nothing);
otherwise it writes exactly `RUN <fn> <nonce>[ <param>]\n` to the station's
owning connection, inserts the pending run under the nonce (recording the
requester and the station name), answers ACK, and leaves every other
station's entry untouched — so the same nonce may be pending at two
different stations at once. -/
theorem c4_run_routing (st : ServerState) (cid : ConnId)
    (nm name fn nonce : String) (param : Option String) :
    (lookupA st.stations name = none →
      handleRun st cid nm (runArgs name fn nonce param)
        = ⟨st, nm, [], .error ("station " ++ name ++ " is somehow unknown to us")⟩) ∧
    (∀ station r0, lookupA st.stations name = some station →
      lookupA station.runs nonce = some r0 →
      handleRun st cid nm (runArgs name fn nonce param)
        = ⟨st, nm, [], .error ("nonce " ++ nonce ++ " already in use")⟩) ∧
    (∀ station, lookupA st.stations name = some station →
      lookupA station.runs nonce = none →
      (handleRun st cid nm (runArgs name fn nonce param)).resp = .ok "ACK" ∧
      (handleRun st cid nm (runArgs name fn nonce param)).fwd
        = [(station.c, "RUN " ++ fn ++ " " ++ nonce ++
             (match param with | some p => " " ++ p | none => "") ++ "\n")] ∧
      runsOf (handleRun st cid nm (runArgs name fn nonce param)).st name nonce
        = some { client := cid, name := name } ∧
      (handleRun st cid nm (runArgs name fn nonce param)).connName = nm ∧
      (∀ k, k ≠ name →
        lookupA (handleRun st cid nm (runArgs name fn nonce param)).st.stations k
          = lookupA st.stations k)) := by
  refine ⟨?_, ?_, ?_⟩
  · intro hn
    cases param <;> simp [handleRun, runArgs, hn]
  · intro station r0 hst hr
    cases param <;> simp [handleRun, runArgs, hst, hr]
  · intro station hst hr
    have hrun : handleRun st cid nm (runArgs name fn nonce param) =
        (⟨{ st with
            stations := setA st.stations name
              { station with
                  runs := setA station.runs nonce
                    { client := cid, name := name } } }, nm,
            [(station.c, runLine fn nonce param)], .ok "ACK"⟩ : HRes) := by
      cases param <;> simp [handleRun, runArgs, hst, hr]
    refine ⟨by rw [hrun], ?_, ?_, by rw [hrun], ?_⟩
    · rw [hrun]; cases param <;> simp [runLine]
    · unfold runsOf
      rw [hrun]
      simp only
      rw [lookupA_setA_same]
      exact lookupA_setA_same _ _ _
    · intro k hk
      rw [hrun]
      exact lookupA_setA_other _ _ _ _ (fun h => hk h.symm)

theorem c4_run_routing_witness :
    (handleRun c4St 2 "" (runArgs "water" "test" "n1" (some "p"))).resp
        = .ok "ACK" ∧
    (handleRun c4St 2 "" (runArgs "water" "test" "n1" (some "p"))).fwd
        = [(0, "RUN " ++ "test" ++ " " ++ "n1" ++ " " ++ "p" ++ "\n")] ∧
    runsOf (handleRun c4St 2 "" (runArgs "water" "test" "n1" (some "p"))).st
        "water" "n1" = some { client := 2, name := "water" } ∧
    lookupA (handleRun c4St 2 "" (runArgs "water" "test" "n1" (some "p"))).st.stations
        "heat" = lookupA c4St.stations "heat" ∧
    handleRun c4St 2 "" (runArgs "nosuch" "test" "n1" none)
        = ⟨c4St, "", [], .error ("station " ++ "nosuch" ++ " is somehow unknown to us")⟩ := by
  have h := (c4_run_routing c4St 2 "" "water" "test" "n1" (some "p")).2.2
    { metrics := [], c := 0, tipe := "source", runs := [] } (by decide) (by decide)
  have h0 := (c4_run_routing c4St 2 "" "nosuch" "test" "n1" none).1 (by decide)
  exact ⟨h.1, h.2.1, h.2.2.1, h.2.2.2.2 "heat" (by decide), h0⟩

/-- C5: on a successful completion the requester receives exactly
`DONE <stationName> <fn> <nonce>[ <result>]\n` (result omitted when the
station supplied none) or exactly `ERR <stationName> <fn> <nonce>\n`; a
three-argument ERR is an arity error that writes nothing, so no result field
is ever attached to an ERR line. -/
theorem c5_completion_lines (st : ServerState) (cid : ConnId)
    (nm fn nonce : String) (r : Run) (result : Option String)
    (hreg : nm ≠ "") (hrun : runsOf st nm nonce = some r) :
    (handleDone st cid nm
        ([fn, nonce] ++ (match result with | some x => [x] | none => []))).fwd
      = [(r.client, "DONE " ++ r.name ++ " " ++ fn ++ " " ++ nonce ++
           (match result with | some x => " " ++ x | none => "") ++ "\n")] ∧
    (handleErrorCmd st cid nm [fn, nonce]).fwd
      = [(r.client, "ERR " ++ r.name ++ " " ++ fn ++ " " ++ nonce ++ "\n")] ∧
    (∀ x, handleErrorCmd st cid nm [fn, nonce, x]
      = ⟨st, nm, [], .error (argCountMsg [fn, nonce, x])⟩) := by
  have hstation : ∃ station, lookupA st.stations nm = some station := by
    unfold runsOf at hrun
    cases hx : lookupA st.stations nm with
    | none => rw [hx] at hrun; cases hrun
    | some s => exact ⟨s, rfl⟩
  obtain ⟨station, hst⟩ := hstation
  have hr : lookupA station.runs nonce = some r := by
    unfold runsOf at hrun; rw [hst] at hrun; exact hrun
  refine ⟨?_, ?_, ?_⟩
  · cases result <;> simp [handleDone, hreg, hst, hr, doneLine]
  · simp [handleErrorCmd, hreg, hst, hr, errLine]
  · intro x; simp [handleErrorCmd]

/-- Witness scenario for `c5_completion_lines`: same pending-run state as
`c3St`. -/
theorem c5_completion_lines_witness :
    (handleDone c3St 0 "water" ["test", "n1", "out"]).fwd
      = [(7, "DONE " ++ "water" ++ " " ++ "test" ++ " " ++ "n1" ++ " " ++ "out" ++ "\n")] ∧
    (handleErrorCmd c3St 0 "water" ["test", "n1"]).fwd
      = [(7, "ERR " ++ "water" ++ " " ++ "test" ++ " " ++ "n1" ++ "\n")] ∧
    handleErrorCmd c3St 0 "water" ["test", "n1", "out"]
      = ⟨c3St, "water", [], .error (argCountMsg ["test", "n1", "out"])⟩ := by
  have h := c5_completion_lines c3St 0 "water" "test" "n1"
    { client := 7, name := "water" } (some "out") (by decide) (by decide)
  exact ⟨h.1, h.2.1, h.2.2 "out"⟩

/-- C6: METRIC, DONE and ERR fail on every argument list when the connection
is untagged, while the results of REGISTER, LIST, METRICS and RUN (state,
forwarded writes and response) never depend on the connection's tag — being
unregistered is never a failure reason for them. -/
theorem c6_registration_gating (st : ServerState) (cid : ConnId)
    (nm : String) (args : List String) :
    respFailed (handleMetric st cid "" args).resp = true ∧
    respFailed (handleDone st cid "" args).resp = true ∧
    respFailed (handleErrorCmd st cid "" args).resp = true ∧
    handleList st cid nm args = { handleList st cid "" args with connName := nm } ∧
    handleMetrics st cid nm args = { handleMetrics st cid "" args with connName := nm } ∧
    handleRun st cid nm args = { handleRun st cid "" args with connName := nm } ∧
    (handleRegister st cid nm args).resp = (handleRegister st cid "" args).resp ∧
    (handleRegister st cid nm args).st = (handleRegister st cid "" args).st ∧
    (handleRegister st cid nm args).fwd = (handleRegister st cid "" args).fwd := by
  refine ⟨?_, ?_, ?_, ?_, ?_, ?_, ?_⟩
  · rcases args with _ | ⟨a, _ | ⟨b, _ | ⟨c, rest⟩⟩⟩ <;>
      simp [handleMetric, respFailed]
    by_cases hv : parseFloatOk b <;> simp [hv, respFailed]
  · rcases args with _ | ⟨a, _ | ⟨b, _ | ⟨c, _ | ⟨d, rest⟩⟩⟩⟩ <;>
      simp [handleDone, respFailed]
  · rcases args with _ | ⟨a, _ | ⟨b, _ | ⟨c, rest⟩⟩⟩ <;>
      simp [handleErrorCmd, respFailed]
  · rcases args with _ | ⟨a, rest⟩ <;> simp [handleList]
  · rcases args with _ | ⟨a, _ | ⟨b, _ | ⟨c, rest⟩⟩⟩
    · simp [handleMetrics]
    · cases hl : lookupA st.stations a <;> simp [handleMetrics, hl]
    · cases hl : lookupA st.stations a with
      | none => simp [handleMetrics, hl]
      | some stn =>
        cases hm : lookupA stn.metrics b <;> simp [handleMetrics, hl, hm]
    · simp [handleMetrics]
  · rcases args with _ | ⟨a, _ | ⟨b, _ | ⟨c, _ | ⟨d, _ | ⟨e, rest⟩⟩⟩⟩⟩
    · simp [handleRun]
    · simp [handleRun]
    · simp [handleRun]
    · cases hl : lookupA st.stations a with
      | none => simp [handleRun, hl]
      | some stn =>
        cases hr : lookupA stn.runs c <;> simp [handleRun, hl, hr]
    · cases hl : lookupA st.stations a with
      | none => simp [handleRun, hl]
      | some stn =>
        cases hr : lookupA stn.runs c <;> simp [handleRun, hl, hr]
    · simp [handleRun]
  · rcases args with _ | ⟨a, _ | ⟨b, _ | ⟨c, rest⟩⟩⟩
    · simp [handleRegister]
    · simp [handleRegister]
    · cases hl : lookupA st.stations a <;> simp [handleRegister, hl]
    · simp [handleRegister]

theorem hframe_register (st : ServerState) (cid : ConnId) (nm : String)
    (args : List String)
    (h : respFailed (handleRegister st cid nm args).resp = true) :
    (handleRegister st cid nm args).st = st ∧
    (handleRegister st cid nm args).connName = nm ∧
    (handleRegister st cid nm args).fwd = [] := by
  rcases args with _ | ⟨a, _ | ⟨b, _ | ⟨c, rest⟩⟩⟩
  · simp [handleRegister]
  · simp [handleRegister]
  · cases hl : lookupA st.stations a with
    | none => simp [handleRegister, hl, respFailed] at h
    | some stn => simp [handleRegister, hl]
  · simp [handleRegister]

theorem hframe_list (st : ServerState) (cid : ConnId) (nm : String)
    (args : List String)
    (h : respFailed (handleList st cid nm args).resp = true) :
    (handleList st cid nm args).st = st ∧
    (handleList st cid nm args).connName = nm ∧
    (handleList st cid nm args).fwd = [] := by
  rcases args with _ | ⟨a, rest⟩ <;> simp [handleList]

theorem hframe_metric (st : ServerState) (cid : ConnId) (nm : String)
    (args : List String)
    (h : respFailed (handleMetric st cid nm args).resp = true) :
    (handleMetric st cid nm args).st = st ∧
    (handleMetric st cid nm args).connName = nm ∧
    (handleMetric st cid nm args).fwd = [] := by
  rcases args with _ | ⟨a, _ | ⟨b, _ | ⟨c, rest⟩⟩⟩
  · simp [handleMetric]
  · simp [handleMetric]
  · by_cases hv : parseFloatOk b
    · by_cases hn : nm = ""
      · simp [handleMetric, hv, hn]
      · cases hl : lookupA st.stations nm with
        | none => simp [handleMetric, hv, hn, hl]
        | some stn => simp [handleMetric, hv, hn, hl, respFailed] at h
    · simp [handleMetric, hv]
  · simp [handleMetric]

theorem hframe_metrics (st : ServerState) (cid : ConnId) (nm : String)
    (args : List String)
    (h : respFailed (handleMetrics st cid nm args).resp = true) :
    (handleMetrics st cid nm args).st = st ∧
    (handleMetrics st cid nm args).connName = nm ∧
    (handleMetrics st cid nm args).fwd = [] := by
  rcases args with _ | ⟨a, _ | ⟨b, _ | ⟨c, rest⟩⟩⟩
  · simp [handleMetrics]
  · cases hl : lookupA st.stations a <;> simp [handleMetrics, hl]
  · cases hl : lookupA st.stations a with
    | none => simp [handleMetrics, hl]
    | some stn =>
      cases hm : lookupA stn.metrics b <;> simp [handleMetrics, hl, hm]
  · simp [handleMetrics]

theorem hframe_run (st : ServerState) (cid : ConnId) (nm : String)
    (args : List String)
    (h : respFailed (handleRun st cid nm args).resp = true) :
    (handleRun st cid nm args).st = st ∧
    (handleRun st cid nm args).connName = nm ∧
    (handleRun st cid nm args).fwd = [] := by
  rcases args with _ | ⟨a, _ | ⟨b, _ | ⟨c, _ | ⟨d, _ | ⟨e, rest⟩⟩⟩⟩⟩
  · simp [handleRun]
  · simp [handleRun]
  · simp [handleRun]
  · cases hl : lookupA st.stations a with
    | none => simp [handleRun, hl]
    | some stn =>
      cases hr : lookupA stn.runs c with
      | none => simp [handleRun, hl, hr, respFailed] at h
      | some r0 => simp [handleRun, hl, hr]
  · cases hl : lookupA st.stations a with
    | none => simp [handleRun, hl]
    | some stn =>
      cases hr : lookupA stn.runs c with
      | none => simp [handleRun, hl, hr, respFailed] at h
      | some r0 => simp [handleRun, hl, hr]
  · simp [handleRun]

theorem hframe_done (st : ServerState) (cid : ConnId) (nm : String)
    (args : List String)
    (h : respFailed (handleDone st cid nm args).resp = true) :
    (handleDone st cid nm args).st = st ∧
    (handleDone st cid nm args).connName = nm ∧
    (handleDone st cid nm args).fwd = [] := by
  rcases args with _ | ⟨a, _ | ⟨b, _ | ⟨c, _ | ⟨d, rest⟩⟩⟩⟩
  · simp [handleDone]
  · simp [handleDone]
  · by_cases hn : nm = ""
    · simp [handleDone, hn]
    · cases hl : lookupA st.stations nm with
      | none => simp [handleDone, hn, hl]
      | some stn =>
        cases hr : lookupA stn.runs b with
        | none => simp [handleDone, hn, hl, hr]
        | some r0 => simp [handleDone, hn, hl, hr, respFailed] at h
  · by_cases hn : nm = ""
    · simp [handleDone, hn]
    · cases hl : lookupA st.stations nm with
      | none => simp [handleDone, hn, hl]
      | some stn =>
        cases hr : lookupA stn.runs b with
        | none => simp [handleDone, hn, hl, hr]
        | some r0 => simp [handleDone, hn, hl, hr, respFailed] at h
  · simp [handleDone]

theorem hframe_errcmd (st : ServerState) (cid : ConnId) (nm : String)
    (args : List String)
    (h : respFailed (handleErrorCmd st cid nm args).resp = true) :
    (handleErrorCmd st cid nm args).st = st ∧
    (handleErrorCmd st cid nm args).connName = nm ∧
    (handleErrorCmd st cid nm args).fwd = [] := by
  rcases args with _ | ⟨a, _ | ⟨b, _ | ⟨c, rest⟩⟩⟩
  · simp [handleErrorCmd]
  · simp [handleErrorCmd]
  · by_cases hn : nm = ""
    · simp [handleErrorCmd, hn]
    · cases hl : lookupA st.stations nm with
      | none => simp [handleErrorCmd, hn, hl]
      | some stn =>
        cases hr : lookupA stn.runs b with
        | none => simp [handleErrorCmd, hn, hl, hr]
        | some r0 => simp [handleErrorCmd, hn, hl, hr, respFailed] at h
  · simp [handleErrorCmd]

theorem dispatch_failed_frame (st : ServerState) (cid : ConnId) (nm : String)
    (line : String) (h : (dispatch st cid nm line).failed = true) :
    (dispatch st cid nm line).st = st ∧
    (dispatch st cid nm line).connName = nm ∧
    (dispatch st cid nm line).fwd = [] ∧
    ((dispatch st cid nm line).wire = "ERR\n" ∨
     (dispatch st cid nm line).wire = "ERR UNRECOGNIZED CMD\n") := by
  rcases hp : splitSp line with _ | ⟨cmd, rest⟩
  · simp [dispatch, hp]
  · by_cases e1 : cmd = "LIST"
    · subst e1
      rcases hr : (handleList st cid nm rest).resp with e | r
      · have hf := hframe_list st cid nm rest (by rw [hr]; rfl)
        simp [dispatch, hp, hr, hf.1, hf.2.1, hf.2.2]
      · rw [dispatch, hp] at h; simp [hr] at h
    · by_cases e2 : cmd = "REGISTER"
      · subst e2
        rcases hr : (handleRegister st cid nm rest).resp with e | r
        · have hf := hframe_register st cid nm rest (by rw [hr]; rfl)
          simp [dispatch, hp, hr, hf.1, hf.2.1, hf.2.2]
        · rw [dispatch, hp] at h; simp [hr] at h
      · by_cases e3 : cmd = "METRIC"
        · subst e3
          rcases hr : (handleMetric st cid nm rest).resp with e | r
          · have hf := hframe_metric st cid nm rest (by rw [hr]; rfl)
            simp [dispatch, hp, hr, hf.1, hf.2.1, hf.2.2]
          · rw [dispatch, hp] at h; simp [hr] at h
        · by_cases e4 : cmd = "METRICS"
          · subst e4
            rcases hr : (handleMetrics st cid nm rest).resp with e | r
            · have hf := hframe_metrics st cid nm rest (by rw [hr]; rfl)
              simp [dispatch, hp, hr, hf.1, hf.2.1, hf.2.2]
            · rw [dispatch, hp] at h; simp [hr] at h
          · by_cases e5 : cmd = "RUN"
            · subst e5
              rcases hr : (handleRun st cid nm rest).resp with e | r
              · have hf := hframe_run st cid nm rest (by rw [hr]; rfl)
                simp [dispatch, hp, hr, hf.1, hf.2.1, hf.2.2]
              · rw [dispatch, hp] at h; simp [hr] at h
            · by_cases e6 : cmd = "DONE"
              · subst e6
                rcases hr : (handleDone st cid nm rest).resp with e | r
                · have hf := hframe_done st cid nm rest (by rw [hr]; rfl)
                  simp [dispatch, hp, hr, hf.1, hf.2.1, hf.2.2]
                · rw [dispatch, hp] at h; simp [hr] at h
              · by_cases e7 : cmd = "ERR"
                · subst e7
                  rcases hr : (handleErrorCmd st cid nm rest).resp with e | r
                  · have hf := hframe_errcmd st cid nm rest (by rw [hr]; rfl)
                    simp [dispatch, hp, hr, hf.1, hf.2.1, hf.2.2]
                  · rw [dispatch, hp] at h; simp [hr] at h
                · simp [dispatch, hp, e1, e2, e3, e4, e5, e6, e7]

/-- C7: no error terminates a session.  Whenever the dispatcher answers a
line with an error (unrecognized command or any handler failure), the server
state, the connection's tag and the forwarded writes are untouched, the
response is the corresponding error line, and the remaining input lines are
processed exactly as they would have been from the same state. -/
theorem c7_errors_nonfatal (st : ServerState) (cid : ConnId) (nm : String)
    (line : String) (rest : List String)
    (h : (dispatch st cid nm line).failed = true) :
    (dispatch st cid nm line).st = st ∧
    (dispatch st cid nm line).connName = nm ∧
    (dispatch st cid nm line).fwd = [] ∧
    ((dispatch st cid nm line).wire = "ERR\n" ∨
      (dispatch st cid nm line).wire = "ERR UNRECOGNIZED CMD\n") ∧
    handleLines st cid nm (line :: rest) =
      ((handleLines st cid nm rest).1, (handleLines st cid nm rest).2.1,
        (cid, (dispatch st cid nm line).wire) :: (handleLines st cid nm rest).2.2) := by
  obtain ⟨h1, h2, h3, h4⟩ := dispatch_failed_frame st cid nm line h
  refine ⟨h1, h2, h3, h4, ?_⟩
  simp [handleLines, h1, h2, h3]

theorem c7_errors_nonfatal_witness :
    (dispatch (initState 4) 0 "" "DOODLE").failed = true ∧
    (dispatch (initState 4) 0 "" "DOODLE").st = initState 4 ∧
    handleLines (initState 4) 0 "" ["DOODLE", "LIST"] =
      ((handleLines (initState 4) 0 "" ["LIST"]).1,
       (handleLines (initState 4) 0 "" ["LIST"]).2.1,
       (0, (dispatch (initState 4) 0 "" "DOODLE").wire)
         :: (handleLines (initState 4) 0 "" ["LIST"]).2.2) := by
  have h := c7_errors_nonfatal (initState 4) 0 "" "DOODLE" ["LIST"] (by decide)
  exact ⟨by decide, h.1, h.2.2.2.2⟩

/-- C8: when a registered station's connection terminates, the only change
is the (idempotent) removal of its registry entry: the cleanup writes
nothing — in particular no DONE or ERR is sent for its still-pending runs —
and every other station's entry, the configuration and the clock are
untouched. -/
theorem c8_disconnect_only_unregisters (st' : ServerState) (nm' : String)
    (hne : nm' ≠ "") :
    lookupA (disconnect st' nm').stations nm' = none ∧
    (∀ k, k ≠ nm' →
      lookupA (disconnect st' nm').stations k = lookupA st'.stations k) ∧
    (disconnect st' nm').maxMetricPoints = st'.maxMetricPoints ∧
    (disconnect st' nm').now = st'.now ∧
    disconnect (disconnect st' nm') nm' = disconnect st' nm' ∧
    (∀ st cid lines,
      (handleConn st cid lines).2 = (handleLines st cid "" lines).2.2) := by
  have h0 : lookupA (disconnect st' nm').stations nm' = none := by
    unfold disconnect
    rw [if_neg hne]
    cases hl : lookupA st'.stations nm' with
    | none => exact hl
    | some s => exact lookupA_eraseA_same _ _
  refine ⟨h0, ?_, ?_, ?_, ?_, ?_⟩
  · intro k hk
    unfold disconnect
    rw [if_neg hne]
    cases hl : lookupA st'.stations nm' with
    | none => rfl
    | some s => exact lookupA_eraseA_other _ _ _ hk.symm
  · unfold disconnect
    rw [if_neg hne]
    cases hl : lookupA st'.stations nm' <;> rfl
  · unfold disconnect
    rw [if_neg hne]
    cases hl : lookupA st'.stations nm' <;> rfl
  · conv_lhs => rw [disconnect]
    rw [if_neg hne, h0]
  · intro st cid lines
    rfl

theorem c8_disconnect_only_unregisters_witness :
    lookupA (disconnect c3St "water").stations "water" = none ∧
    (handleConn (initState 4) 0 ["REGISTER water source"]).2
      = (handleLines (initState 4) 0 "" ["REGISTER water source"]).2.2 ∧
    disconnect (disconnect c3St "water") "water" = disconnect c3St "water" := by
  have h := c8_disconnect_only_unregisters c3St "water" (by decide)
  exact ⟨h.1, h.2.2.2.2.2 (initState 4) 0 ["REGISTER water source"],
    h.2.2.2.2.1⟩

theorem runsNamedL_setA (l : List (String × Station)) (k0 : String)
    (s0 : Station) (hinv : runsNamedL l)
    (hs : ∀ n r, lookupA s0.runs n = some r → r.name = k0) :
    runsNamedL (setA l k0 s0) := by
  intro k station hlk n r hr
  rw [lookupA_setA] at hlk
  by_cases hk : k0 = k
  · rw [if_pos hk] at hlk
    cases hlk
    rw [← hk]
    exact hs n r hr
  · rw [if_neg hk] at hlk
    exact hinv k station hlk n r hr

theorem runsNamedL_eraseA (l : List (String × Station)) (k0 : String)
    (hinv : runsNamedL l) : runsNamedL (eraseA l k0) := by
  intro k station hlk n r hr
  rw [lookupA_eraseA] at hlk
  by_cases hk : k0 = k
  · rw [if_pos hk] at hlk; cases hlk
  · rw [if_neg hk] at hlk
    exact hinv k station hlk n r hr

theorem runNamesInv_register (st : ServerState) (cid : ConnId) (nm : String)
    (args : List String) (hinv : RunNamesInv st) :
    RunNamesInv (handleRegister st cid nm args).st := by
  rcases args with _ | ⟨a, _ | ⟨b, _ | ⟨c, rest⟩⟩⟩
  · exact hinv
  · exact hinv
  · cases hl : lookupA st.stations a with
    | some s => simp [handleRegister, hl]; exact hinv
    | none =>
      simp only [handleRegister, hl]
      exact runsNamedL_setA _ _ _ hinv (by intro n r hr; cases hr)
  · exact hinv

theorem runNamesInv_metric (st : ServerState) (cid : ConnId) (nm : String)
    (args : List String) (hinv : RunNamesInv st) :
    RunNamesInv (handleMetric st cid nm args).st := by
  rcases args with _ | ⟨a, _ | ⟨b, _ | ⟨c, rest⟩⟩⟩
  · exact hinv
  · exact hinv
  · by_cases hv : parseFloatOk b
    · by_cases hn : nm = ""
      · simp [handleMetric, hv, hn]; exact hinv
      · cases hl : lookupA st.stations nm with
        | none => simp [handleMetric, hv, hn, hl]; exact hinv
        | some station =>
          simp [handleMetric, hv, hn, hl]
          exact runsNamedL_setA _ _ _ hinv
            (fun n r hr => hinv nm station hl n r hr)
    · simp [handleMetric, hv]; exact hinv
  · exact hinv

theorem runNamesInv_run (st : ServerState) (cid : ConnId) (nm : String)
    (args : List String) (hinv : RunNamesInv st) :
    RunNamesInv (handleRun st cid nm args).st := by
  have key : ∀ (a b c : String) (param : Option String),
      RunNamesInv (handleRun st cid nm (runArgs a b c param)).st := by
    intro a b c param
    cases hl : lookupA st.stations a with
    | none => cases param <;> simp [handleRun, runArgs, hl] <;> exact hinv
    | some station =>
      cases hr : lookupA station.runs c with
      | some r0 => cases param <;> simp [handleRun, runArgs, hl, hr] <;> exact hinv
      | none =>
        have : RunNamesInv { st with
            stations := setA st.stations a
              { station with
                  runs := setA station.runs c { client := cid, name := a } } } := by
          refine runsNamedL_setA _ _ _ hinv ?_
          intro n r hrn
          simp only [lookupA_setA] at hrn
          by_cases hc : c = n
          · rw [if_pos hc] at hrn; cases hrn; rfl
          · rw [if_neg hc] at hrn
            exact hinv a station hl n r hrn
        cases param <;> simpa [handleRun, runArgs, hl, hr] using this
  rcases args with _ | ⟨a, _ | ⟨b, _ | ⟨c, _ | ⟨d, _ | ⟨e, rest⟩⟩⟩⟩⟩
  · exact hinv
  · exact hinv
  · exact hinv
  · exact key a b c none
  · exact key a b c (some d)
  · exact hinv

theorem runNamesInv_done (st : ServerState) (cid : ConnId) (nm : String)
    (args : List String) (hinv : RunNamesInv st) :
    RunNamesInv (handleDone st cid nm args).st := by
  have key : ∀ (a b : String) (result : Option String),
      RunNamesInv (handleDone st cid nm
        ([a, b] ++ (match result with | some x => [x] | none => []))).st := by
    intro a b result
    by_cases hn : nm = ""
    · cases result <;> simp [handleDone, hn] <;> exact hinv
    · cases hl : lookupA st.stations nm with
      | none => cases result <;> simp [handleDone, hn, hl] <;> exact hinv
      | some station =>
        cases hr : lookupA station.runs b with
        | none => cases result <;> simp [handleDone, hn, hl, hr] <;> exact hinv
        | some r0 =>
          have : RunNamesInv { st with
              stations := setA st.stations nm
                { station with runs := eraseA station.runs b } } := by
            refine runsNamedL_setA _ _ _ hinv ?_
            intro n r hrn
            rw [lookupA_eraseA] at hrn
            by_cases hc : b = n
            · rw [if_pos hc] at hrn; cases hrn
            · rw [if_neg hc] at hrn
              exact hinv nm station hl n r hrn
          cases result <;> simpa [handleDone, hn, hl, hr] using this
  rcases args with _ | ⟨a, _ | ⟨b, _ | ⟨c, _ | ⟨d, rest⟩⟩⟩⟩
  · exact hinv
  · exact hinv
  · exact key a b none
  · exact key a b (some c)
  · exact hinv

theorem runNamesInv_errcmd (st : ServerState) (cid : ConnId) (nm : String)
    (args : List String) (hinv : RunNamesInv st) :
    RunNamesInv (handleErrorCmd st cid nm args).st := by
  rcases args with _ | ⟨a, _ | ⟨b, _ | ⟨c, rest⟩⟩⟩
  · exact hinv
  · exact hinv
  · by_cases hn : nm = ""
    · simp [handleErrorCmd, hn]; exact hinv
    · cases hl : lookupA st.stations nm with
      | none => simp [handleErrorCmd, hn, hl]; exact hinv
      | some station =>
        cases hr : lookupA station.runs b with
        | none => simp [handleErrorCmd, hn, hl, hr]; exact hinv
        | some r0 =>
          have : RunNamesInv { st with
              stations := setA st.stations nm
                { station with runs := eraseA station.runs b } } := by
            refine runsNamedL_setA _ _ _ hinv ?_
            intro n r hrn
            rw [lookupA_eraseA] at hrn
            by_cases hc : b = n
            · rw [if_pos hc] at hrn; cases hrn
            · rw [if_neg hc] at hrn
              exact hinv nm station hl n r hrn
          simpa [handleErrorCmd, hn, hl, hr] using this
  · exact hinv

theorem runNamesInv_list (st : ServerState) (cid : ConnId) (nm : String)
    (args : List String) (hinv : RunNamesInv st) :
    RunNamesInv (handleList st cid nm args).st := by
  rcases args with _ | ⟨a, rest⟩ <;> simp [handleList] <;> exact hinv

theorem runNamesInv_metrics (st : ServerState) (cid : ConnId) (nm : String)
    (args : List String) (hinv : RunNamesInv st) :
    RunNamesInv (handleMetrics st cid nm args).st := by
  rcases args with _ | ⟨a, _ | ⟨b, _ | ⟨c, rest⟩⟩⟩
  · exact hinv
  · cases hl : lookupA st.stations a <;> simp [handleMetrics, hl] <;> exact hinv
  · cases hl : lookupA st.stations a with
    | none => simp [handleMetrics, hl]; exact hinv
    | some stn =>
      cases hm : lookupA stn.metrics b <;> simp [handleMetrics, hl, hm] <;>
        exact hinv
  · exact hinv

theorem runNamesInv_dispatch (st : ServerState) (cid : ConnId) (nm : String)
    (line : String) (hinv : RunNamesInv st) :
    RunNamesInv (dispatch st cid nm line).st := by
  rcases hp : splitSp line with _ | ⟨cmd, rest⟩
  · simp [dispatch, hp]; exact hinv
  · by_cases e1 : cmd = "LIST"
    · subst e1
      cases hr : (handleList st cid nm rest).resp <;>
        simp [dispatch, hp, hr] <;>
        simpa [hr] using runNamesInv_list st cid nm rest hinv
    · by_cases e2 : cmd = "REGISTER"
      · subst e2
        cases hr : (handleRegister st cid nm rest).resp <;>
          simp [dispatch, hp, hr] <;>
          simpa [hr] using runNamesInv_register st cid nm rest hinv
      · by_cases e3 : cmd = "METRIC"
        · subst e3
          cases hr : (handleMetric st cid nm rest).resp <;>
            simp [dispatch, hp, hr] <;>
            simpa [hr] using runNamesInv_metric st cid nm rest hinv
        · by_cases e4 : cmd = "METRICS"
          · subst e4
            cases hr : (handleMetrics st cid nm rest).resp <;>
              simp [dispatch, hp, hr] <;>
              simpa [hr] using runNamesInv_metrics st cid nm rest hinv
          · by_cases e5 : cmd = "RUN"
            · subst e5
              cases hr : (handleRun st cid nm rest).resp <;>
                simp [dispatch, hp, hr] <;>
                simpa [hr] using runNamesInv_run st cid nm rest hinv
            · by_cases e6 : cmd = "DONE"
              · subst e6
                cases hr : (handleDone st cid nm rest).resp <;>
                  simp [dispatch, hp, hr] <;>
                  simpa [hr] using runNamesInv_done st cid nm rest hinv
              · by_cases e7 : cmd = "ERR"
                · subst e7
                  cases hr : (handleErrorCmd st cid nm rest).resp <;>
                    simp [dispatch, hp, hr] <;>
                    simpa [hr] using runNamesInv_errcmd st cid nm rest hinv
                · simp [dispatch, hp, e1, e2, e3, e4, e5, e6, e7]
                  exact hinv

theorem runNamesInv_gstep (g : Global) (e : Event)
    (hinv : RunNamesInv g.srv) : RunNamesInv (gstep g e).srv := by
  cases e with
  | line cid s => exact runNamesInv_dispatch g.srv cid (connTag g cid) s hinv
  | disc cid =>
    show RunNamesInv (disconnect g.srv (connTag g cid))
    unfold disconnect
    by_cases hn : connTag g cid = ""
    · rw [if_pos hn]; exact hinv
    · rw [if_neg hn]
      cases hl : lookupA g.srv.stations (connTag g cid) with
      | none => exact hinv
      | some s => exact runsNamedL_eraseA _ _ hinv

theorem runNamesInv_gRun (maxP : Nat) (evs : List Event) :
    RunNamesInv (gRun maxP evs).srv := by
  have hfold : ∀ (l : List Event) (g : Global), RunNamesInv g.srv →
      RunNamesInv (l.foldl gstep g).srv := by
    intro l
    induction l with
    | nil => intro g hg; exact hg
    | cons e t ih =>
      intro g hg
      exact ih _ (runNamesInv_gstep g e hg)
  refine hfold evs _ ?_
  intro k station hlk
  cases hlk

/-- C10: in every reachable server state, a pending run stored under a
registry key records exactly that key as its station name, so the DONE or
ERR line later forwarded to the saved requester names exactly the station
the original RUN targeted. -/
theorem c10_pending_run_names (maxP : Nat) (evs : List Event)
    (k : String) (station : Station) (n : String) (r : Run)
    (hk : k ≠ "")
    (h1 : lookupA (gRun maxP evs).srv.stations k = some station)
    (h2 : lookupA station.runs n = some r) :
    r.name = k ∧
    (∀ cid fn,
      (handleDone (gRun maxP evs).srv cid k [fn, n]).fwd
        = [(r.client, "DONE " ++ k ++ " " ++ fn ++ " " ++ n ++ "\n")] ∧
      (handleErrorCmd (gRun maxP evs).srv cid k [fn, n]).fwd
        = [(r.client, "ERR " ++ k ++ " " ++ fn ++ " " ++ n ++ "\n")]) := by
  have hname : r.name = k := runNamesInv_gRun maxP evs k station h1 n r h2
  refine ⟨hname, ?_⟩
  intro cid fn
  constructor
  · simp [handleDone, hk, h1, h2, doneLine, hname]
  · simp [handleErrorCmd, hk, h1, h2, errLine, hname]

theorem c10_pending_run_names_witness :
    ({ client := 1, name := "water" } : Run).name = "water" ∧
    (handleDone (gRun 4 [Event.line 0 "REGISTER water source",
        Event.line 1 "RUN water test n1 p"]).srv 0 "water" ["test", "n1"]).fwd
      = [(1, "DONE " ++ "water" ++ " " ++ "test" ++ " " ++ "n1" ++ "\n")] := by
  have h := c10_pending_run_names 4
    [Event.line 0 "REGISTER water source", Event.line 1 "RUN water test n1 p"]
    "water"
    { metrics := [], c := 0, tipe := "source",
      runs := [("n1", { client := 1, name := "water" })] }
    "n1" { client := 1, name := "water" }
    (by decide) (by decide) (by decide)
  exact ⟨h.1, (h.2 0 "test").1⟩

end Drops
